import Mathlib

/-!
Shallow embedding of the CpG-to-gene mapping / gap-analysis engine and the
trait / disease association aggregation engine of the `ewas-catalog`
repository, together with proofs settling the frozen claims about it.

The embedded code lives in
  `original_annotation/modules/cpg_integration.py`
  (`expand_cpg_gene_mappings`, `attach_ewas_atlas_traits`,
   `analyze_unmapped_genes`) and
  `original_annotation/modules/disgenet_utils.py` (`annotate_with_disgenet`).

Modelling conventions:
* A pandas cell is a `Cell`: `na` models NaN/None, `cstr` a Python `str`,
  `cint` an integer cell and `cfloat` a float cell.  Float values are
  modelled as exact fractions (`Frac`); the `%.3f` formatting is modelled
  as round-half-to-even, which agrees with CPython on every value
  exercised here.  Float equality/comparison is by value (`fracEqb`,
  `fracLeb`), never by representative.
* Code that can raise is embedded in `Except String`: `int(...)` on a
  junk string, mixed `str`/number comparisons inside a sort, the
  unconditional TypeError of `rows.sort(key=..., reverse=[True, False])`
  (CPython requires an int-coercible `reverse` and rejects a list during
  argument parsing), and the merge's KeyError on an empty atlas; code
  wrapped in `try/except` in the source is embedded as a total function
  returning the source's fallback value.
* Stable Python sorts (`list.sort`, multi-column `sort_values`, which uses
  a stable lexsort) are embedded as an insertion sort `sortByLe`, which is
  stable by construction.
* `dict` update semantics are modelled by an association list read with a
  last-write-wins lookup (`dictGet`); `drop_duplicates` / `unique` (which
  keep the first occurrence) are modelled by `dedupFirst`.
* Python string operations are re-implemented over `List Char`
  (`pySplit`, `pyStrip`, `pyJoin`, ...) so that every concrete scenario
  evaluates inside the kernel.
-/

deriving instance DecidableEq for Except

/-! ## Python floats as exact fractions -/

/-- An exact fraction modelling a Python float value.  The denominator is
stored as its predecessor (`denMinusOne`), so every representative has a
positive denominator and no well-formedness invariant is needed.
Representatives are not normalised; all comparisons go through the
value-level `fracEqb` / `fracLeb`. -/
structure Frac where
  num : Int
  denMinusOne : Nat
deriving DecidableEq, Repr

/-- The (always positive) denominator. -/
def Frac.den (q : Frac) : Int := (q.denMinusOne : Int) + 1

/-- The integer `n` as a fraction. -/
def intFrac (n : Int) : Frac := ⟨n, 0⟩

/-- Value-level equality of fractions (Python `==` on floats). -/
def fracEqb (a b : Frac) : Bool := a.num * b.den == b.num * a.den

/-- Value-level `≤` on fractions. -/
def fracLeb (a b : Frac) : Bool := decide (a.num * b.den ≤ b.num * a.den)

/-- Value-level `<` on fractions. -/
def fracLtb (a b : Frac) : Bool := decide (a.num * b.den < b.num * a.den)

/-- Division of fractions (callers guard against a zero divisor, as the
source does before `rank / total_associations`). -/
def fracDiv (a b : Frac) : Frac :=
  let n := a.num * b.den
  let d := a.den * b.num
  if d = 0 then ⟨0, 0⟩
  else if d < 0 then ⟨-n, (-d).toNat - 1⟩
  else ⟨n, d.toNat - 1⟩

/-- Floor of a fraction (the denominator is positive, so `ediv` floors). -/
def fracFloor (q : Frac) : Int := q.num.ediv q.den

/-- Round half to even of a fraction to an integer (CPython's float
formatting rounding mode).  `r2` is twice the fractional part, scaled by
the denominator. -/
def roundHalfEven (q : Frac) : Int :=
  let f := fracFloor q
  let r2 := 2 * (q.num - f * q.den)
  if r2 < q.den then f
  else if q.den < r2 then f + 1
  else if f % 2 = 0 then f else f + 1

/-! ## Python string primitives over `List Char` -/

/-- Left-pad a string with zeros to width `w`. -/
def padZeros (w : Nat) (s : String) : String :=
  String.mk (List.replicate (w - s.length) '0') ++ s

/-- Python `f"{x:.3f}"`: fixed three decimal places, round half to even. -/
def formatFixed3 (q : Frac) : String :=
  let n := roundHalfEven ⟨q.num * 1000, q.denMinusOne⟩
  let sign := if n < 0 then "-" else ""
  let m := n.natAbs
  sign ++ toString (m / 1000) ++ "." ++ padZeros 3 (toString (m % 1000))

/-- Smallest number of decimal digits that writes the value of `q`
exactly, if ≤ 30 (floats read from this code's CSV data are short
decimals). -/
def decDigits (q : Frac) : Option Nat :=
  (List.range 31).find? (fun k => (q.num * (10 : Int) ^ k) % q.den == 0)

/-- Python `str(x)` for a float value `x`: shortest exact decimal, with a
trailing `.0` for integral values, e.g. `str(0.5) = "0.5"`,
`str(1.0) = "1.0"`. -/
def strOfFloat (q : Frac) : String :=
  match decDigits q with
  | some 0 => toString (q.num.ediv q.den) ++ ".0"
  | some (k + 1) =>
    let m := (q.num * (10 : Int) ^ (k + 1)).ediv q.den
    let sign := if m < 0 then "-" else ""
    let mm := m.natAbs
    sign ++ toString (mm / 10 ^ (k + 1)) ++ "." ++
      padZeros (k + 1) (toString (mm % 10 ^ (k + 1)))
  | none => toString q.num ++ "/" ++ toString q.den

/-- Python `str.split(c)` on the underlying character list. -/
def splitCharList (c : Char) : List Char → List (List Char)
  | [] => [[]]
  | x :: xs =>
    let r := splitCharList c xs
    if x = c then [] :: r
    else
      match r with
      | [] => [[x]]
      | h :: t => (x :: h) :: t

/-- Python `s.split(c)` for a one-character separator (the source only
splits on `','` and `';'`). -/
def pySplit (s : String) (c : Char) : List String :=
  (splitCharList c s.toList).map String.mk

/-- Python `s.strip()` (leading and trailing whitespace removed). -/
def pyStrip (s : String) : String :=
  String.mk
    (((s.toList.dropWhile Char.isWhitespace).reverse.dropWhile
        Char.isWhitespace).reverse)

/-- Python `sep.join(l)`. -/
def pyJoin (sep : String) : List String → String
  | [] => ""
  | x :: xs => xs.foldl (fun acc s => acc ++ sep ++ s) x

/-- Python `c in s` for a single character. -/
def containsChar (s : String) (c : Char) : Bool :=
  s.toList.any (fun x => x = c)

/-- Python `s.startswith(c)` for a single character. -/
def firstCharIs (s : String) (c : Char) : Bool :=
  match s.toList with
  | x :: _ => x = c
  | [] => false

/-! ## Python cells and coercions -/

/-- A pandas cell: missing (`NaN`/`None`), a Python string, an integer or
a float value. -/
inductive Cell where
  | na : Cell
  | cstr : String → Cell
  | cint : Int → Cell
  | cfloat : Frac → Cell
deriving DecidableEq, Repr

/-- Python truthiness of a cell value (`bool(x)`): NaN is truthy, `""` and
`0` are falsy. -/
def pyTruthy : Cell → Bool
  | Cell.na => true
  | Cell.cstr s => s ≠ ""
  | Cell.cint n => n ≠ 0
  | Cell.cfloat q => q.num ≠ 0

/-- Digits of a nonnegative decimal string; `none` if empty or non-digit. -/
def digitsToNat : List Char → Option Nat
  | [] => none
  | cs =>
    cs.foldl
      (fun acc c =>
        match acc with
        | none => none
        | some n => if c.isDigit then some (n * 10 + (c.toNat - 48)) else none)
      (some 0)

/-- Python `int(s)` on a string: optional surrounding whitespace, optional
sign, decimal digits; anything else raises `ValueError` (`none` here). -/
def parseIntStr (s : String) : Option Int :=
  match (pyStrip s).toList with
  | '+' :: rest => (digitsToNat rest).map Int.ofNat
  | '-' :: rest => (digitsToNat rest).map (fun n => -(n : Int))
  | l => (digitsToNat l).map Int.ofNat

/-- Helper for `parseFloatStr`: digits `[. digits]` with at least one
digit, as an exact fraction. -/
def parseFracBody (body : List Char) : Option Frac :=
  let intPart := body.takeWhile Char.isDigit
  let rest := body.dropWhile Char.isDigit
  match rest with
  | [] => (digitsToNat intPart).map (fun n => intFrac (n : Int))
  | '.' :: frac =>
    if frac.all Char.isDigit ∧ (intPart ≠ [] ∨ frac ≠ []) then
      (digitsToNat (intPart ++ frac)).map
        (fun n => ⟨(n : Int), 10 ^ frac.length - 1⟩)
    else none
  | _ => none

/-- Python `float(s)` on a string: optional whitespace and sign, a decimal
literal `digits[.digits]` / `.digits`; other forms (exponents are not
exercised by this code's data) raise (`none` here). -/
def parseFloatStr (s : String) : Option Frac :=
  match (pyStrip s).toList with
  | '+' :: rest => parseFracBody rest
  | '-' :: rest => (parseFracBody rest).map (fun q => ⟨-q.num, q.denMinusOne⟩)
  | l => parseFracBody l

/-- Python `int(cell)`: floats truncate toward zero, numeric strings
parse, NaN and junk strings raise. -/
def pyInt : Cell → Except String Int
  | Cell.na => Except.error "ValueError"
  | Cell.cstr s =>
    match parseIntStr s with
    | some n => Except.ok n
    | none => Except.error "ValueError"
  | Cell.cint n => Except.ok n
  | Cell.cfloat q => Except.ok (Int.tdiv q.num q.den)

/-- Python `float(cell)`: numbers pass through, numeric strings parse, NaN
and junk strings raise (the only uses are guarded by `pd.notna`). -/
def pyFloat : Cell → Except String Frac
  | Cell.na => Except.error "ValueError"
  | Cell.cstr s =>
    match parseFloatStr s with
    | some q => Except.ok q
    | none => Except.error "ValueError"
  | Cell.cint n => Except.ok (intFrac n)
  | Cell.cfloat q => Except.ok q

/-- Python `str(cell)`: `str(nan) = "nan"`, strings pass through, integer
cells print without a decimal point, float cells with one. -/
def pyStr : Cell → String
  | Cell.na => "nan"
  | Cell.cstr s => s
  | Cell.cint n => toString n
  | Cell.cfloat q => strOfFloat q

/-! ## Ordering, sorting, deduplication, dict and Except helpers -/

/-- Python string `<` (lexicographic on code points), on character lists. -/
def listLtb : List Char → List Char → Bool
  | [], [] => false
  | [], _ :: _ => true
  | _ :: _, [] => false
  | a :: as, b :: bs =>
    if a < b then true else if b < a then false else listLtb as bs

/-- Python string `<` (lexicographic comparison by code points). -/
def strLtb (a b : String) : Bool := listLtb a.toList b.toList

/-- Stable insertion of `x` in front of the first element `y` with
`le x y`; the building block of the stable sorts below. -/
def insSorted (le : α → α → Bool) (x : α) : List α → List α
  | [] => [x]
  | y :: ys => if le x y then x :: y :: ys else y :: insSorted le x ys

/-- Stable sort with respect to the boolean relation `le`; equal elements
keep their input order, exactly like Python's `list.sort` and pandas'
stable multi-column `sort_values`. -/
def sortByLe (le : α → α → Bool) : List α → List α
  | [] => []
  | x :: xs => insSorted le x (sortByLe le xs)

/-- Python `sorted` on strings (ascending by code points). -/
def sortedStrings (l : List String) : List String :=
  sortByLe (fun a b => !strLtb b a) l

/-- Worker for `dedupFirstBy`: `seen` holds the elements already kept. -/
def dedupFirstAux (eqb : α → α → Bool) (seen : List α) : List α → List α
  | [] => []
  | x :: xs =>
    if seen.any (fun y => eqb x y) then dedupFirstAux eqb seen xs
    else x :: dedupFirstAux eqb (x :: seen) xs

/-- Pandas `drop_duplicates` / `unique` with an explicit equality test: remove
later duplicates, keeping the first occurrence of each element class. -/
def dedupFirstBy (eqb : α → α → Bool) (l : List α) : List α :=
  dedupFirstAux eqb [] l

/-- Pandas `drop_duplicates` / `unique` for decidable equality. -/
def dedupFirst [DecidableEq α] (l : List α) : List α :=
  dedupFirstBy (fun a b => decide (a = b)) l

/-- Last-write-wins association-list lookup: the read side of a Python
`dict` built by repeated assignment. -/
def dictGet [DecidableEq α] (m : List (α × β)) (k : α) : Option β :=
  (m.reverse.find? (fun p => decide (p.1 = k))).map Prod.snd

/-- Monadic map over `Except`, failing at the first failing element —
exactly where a Python loop raises. -/
def mapExcept (f : α → Except String β) : List α → Except String (List β)
  | [] => Except.ok []
  | x :: xs =>
    match f x with
    | Except.error e => Except.error e
    | Except.ok y =>
      match mapExcept f xs with
      | Except.error e => Except.error e
      | Except.ok ys => Except.ok (y :: ys)

/-! ## MappingExpander (`cpg_integration.expand_cpg_gene_mappings`) -/

/-- One row of the PI mapping table (`ewas_res_groupsig_128.xlsx`):
probe id, chromosome, coordinates and the raw comma-separated gene field. -/
structure MapRec where
  cpg : String
  chr : Cell
  start_hg38 : Cell
  end_hg38 : Cell
  unique_gene_name : Cell
deriving DecidableEq, Repr

/-- Per-row body of `expand_cpg_gene_mappings` (lines 12-26): fill NaN gene
fields with `"unmapped"`, split string fields on `,`, explode one output
row per token and strip whitespace; a non-string field survives the `.str`
accessor as NaN and explodes to a single NaN row.  The first component is
the (fill-modified) source row, the second the new `gene` column. -/
def expandRecord (r : MapRec) : List (MapRec × Cell) :=
  let filled :=
    { r with
      unique_gene_name :=
        if r.unique_gene_name = Cell.na then Cell.cstr "unmapped"
        else r.unique_gene_name }
  match filled.unique_gene_name with
  | Cell.cstr s =>
    (pySplit s ',').map (fun t => (filled, Cell.cstr (pyStrip t)))
  | _ => [(filled, Cell.na)]

/-- The function `expand_cpg_gene_mappings` over the whole table. -/
def expand_cpg_gene_mappings (l : List MapRec) : List (MapRec × Cell) :=
  l.flatMap expandRecord

/-! ## TraitAggregator (`cpg_integration.attach_ewas_atlas_traits`) -/

/-- One row of the EWAS Atlas table (`data/ewas_atlas.csv`): probe id,
trait fields used by `attach_ewas_atlas_traits` and the semicolon-separated
`genes` field used by `analyze_unmapped_genes`. -/
structure AtlasRow where
  cpg : String
  trait : Cell
  pmid : Cell
  rank : Cell
  total_associations : Cell
  correlation : Cell
  genes : Cell
deriving DecidableEq, Repr

/-- Lines 43-45: `correlation.map({'pos': 'hyper', 'neg': 'hypo'}).fillna('NR')`. -/
def correlation_mapped (c : Cell) : String :=
  if c = Cell.cstr "pos" then "hyper"
  else if c = Cell.cstr "neg" then "hypo"
  else "NR"

/-- Python `cell != 0` (no exception; strings and NaN compare unequal). -/
def cellNeZero : Cell → Bool
  | Cell.na => true
  | Cell.cstr _ => true
  | Cell.cint n => n ≠ 0
  | Cell.cfloat q => q.num ≠ 0

/-- Lines 49-56 (`calc_rank_score`): `rank / total_associations` formatted
`.3f` when both are present and `total != 0`; every failure inside the
`try` (junk strings, division by a float zero) falls back to `"0.000"`. -/
def calc_rank_score (r : AtlasRow) : String :=
  if r.rank ≠ Cell.na ∧ r.total_associations ≠ Cell.na ∧
      cellNeZero r.total_associations then
    match pyFloat r.rank, pyFloat r.total_associations with
    | Except.ok a, Except.ok b =>
      if b.num = 0 then "0.000" else formatFixed3 (fracDiv a b)
    | _, _ => "0.000"
  else "0.000"

/-- One element of the `rows` list built inside `aggregate_traits`
(lines 62-73). -/
structure TraitEntry where
  trait : String
  score : String
  formatted : String
deriving DecidableEq, Repr

/-- Lines 63-73: one `rows` element per group row.  The `str(int(pmid))`
coercion is not inside any `try`, so a pmid cell that is neither null nor
int-convertible raises and aborts the whole aggregation. -/
def mkTraitEntry (r : AtlasRow) : Except String TraitEntry := do
  let trait := pyStrip (pyStr r.trait)
  let score := calc_rank_score r
  let corr := correlation_mapped r.correlation
  let pmid ←
    if r.pmid = Cell.na then pure "NA"
    else do
      let n ← pyInt r.pmid
      pure (toString n)
  pure ⟨trait, score, trait ++ ", " ++ score ++ ", " ++ corr ++ ", " ++ pmid⟩

/-- Lines 61-82 (`aggregate_traits`): the loop at lines 63-73 builds one
entry per group row (its unguarded `str(int(pmid))` raises ValueError on
a malformed pmid cell), and then line 76 calls
`rows.sort(key=..., reverse=[True, False])`.  CPython's `list.sort`
requires an int-coercible `reverse` argument and rejects a list during
argument parsing, before any comparison, so this raises `TypeError:
'list' object cannot be interpreted as an integer` for every group — the
`";\n"` join and the return at lines 78-82 are unreachable. -/
def aggregate_traits (rows : List AtlasRow) : Except String (Option String) := do
  let _ ← mapExcept mkTraitEntry rows
  Except.error "TypeError"

/-- Pandas `groupby('cpg')`: the distinct probe ids in ascending key
order (the groupby default, which fixes the order in which `apply` runs
the groups and hence which group's exception surfaces first), each with
its rows in input order. -/
def groupPairs (l : List AtlasRow) : List (String × List AtlasRow) :=
  (sortedStrings (dedupFirst (l.map AtlasRow.cpg))).map
    (fun k => (k, l.filter (fun r => decide (r.cpg = k))))

/-- An already-expanded mapping row as seen by `attach_ewas_atlas_traits`:
the probe id used as join key plus the remaining (opaque) column values. -/
structure MRow where
  cpg : String
  rest : List Cell
deriving DecidableEq, Repr

/-- Lines 36-91 (`attach_ewas_atlas_traits`): aggregate the atlas per
probe via groupby-apply (groups in sorted key order), then left-merge the
aggregate column onto the mapping table.  For a non-empty atlas the apply
always raises — ValueError if the first processed group hits a malformed
pmid before its sort, otherwise the sort's unconditional TypeError — so
the merge is never reached; for an empty atlas the apply result carries
no `cpg` column and the merge on `cpg` itself raises KeyError.  The
function never returns normally; the merge expression is kept in the
unreachable branch to mirror the source's lines 84-87. -/
def attach_ewas_atlas_traits (mapping : List MRow) (atlas : List AtlasRow) :
    Except String (List (MRow × Option String)) := do
  let grouped ← mapExcept
    (fun p => do
      let v ← aggregate_traits p.2
      pure (p.1, v))
    (groupPairs atlas)
  if atlas.isEmpty then Except.error "KeyError"
  else pure (mapping.map (fun m => (m, (dictGet grouped m.cpg).join)))

/-! ## SynonymResolver and GapAnalyzer (`cpg_integration.analyze_unmapped_genes`) -/

/-- One row of the living gene file (`annotated_genes.xlsx`): the
canonical symbol and its raw synonyms field. -/
structure LivingRow where
  symbol : Cell
  synonyms : Cell
deriving DecidableEq, Repr

/-- Line 99: `set(living_df['symbol'].dropna().astype(str).unique())`. -/
def existing_symbols (living : List LivingRow) : List String :=
  dedupFirst
    ((living.filter (fun r => r.symbol ≠ Cell.na)).map (fun r => pyStr r.symbol))

/-- Skip leading JSON whitespace. -/
def skipWs (cs : List Char) : List Char :=
  cs.dropWhile (fun c => c = ' ' || c = '\t' || c = '\n' || c = '\r')

/-- Parse one JSON string literal (no escape sequences: the synonyms data
never contains them; an escape makes the record's parse fail, which the
source swallows anyway). -/
def parseJString : List Char → Option (String × List Char)
  | '"' :: rest => go rest []
  | _ => none
where
  go : List Char → List Char → Option (String × List Char)
    | [], _ => none
    | '\\' :: _, _ => none
    | '"' :: r, acc => some (String.mk acc.reverse, r)
    | c :: r, acc => go r (c :: acc)

/-- Parse the items of a JSON array of strings after the `[`; the fuel
argument bounds recursion depth by the input length. -/
def parseJItems : Nat → List Char → Option (List String × List Char)
  | 0, _ => none
  | fuel + 1, cs =>
    match skipWs cs with
    | ']' :: r => some ([], r)
    | cs' =>
      match parseJString cs' with
      | none => none
      | some (s, rest) =>
        match skipWs rest with
        | ']' :: r => some ([s], r)
        | ',' :: r =>
          match parseJItems fuel r with
          | some (l, r') => some (s :: l, r')
          | none => none
        | _ => none

/-- Python `json.loads` restricted to arrays of strings, which is the shape of
the synonyms data; any other document fails (and the source swallows the
failure). -/
def parseJsonStringList (s : String) : Option (List String) :=
  match skipWs s.toList with
  | '[' :: rest =>
    match parseJItems (rest.length + 1) rest with
    | some (l, r) => if skipWs r = [] then some l else none
    | none => none
  | _ => none

/-- Lines 104-119, body of the synonym-index `try`: a string field is
parsed as JSON if it starts with `[`, otherwise split on `;` (trimmed,
empties dropped); a non-string, non-null field makes the `for syn in ...`
iteration raise, which the bare `except` swallows (`none` here, zero
entries). -/
def parse_synonyms : Cell → Option (List String)
  | Cell.cstr s =>
    if firstCharIs s '[' then parseJsonStringList s
    else some (((pySplit s ';').map pyStrip).filter (fun t => t ≠ ""))
  | _ => none

/-- The synonym entries contributed by one living row: none when the
synonyms field is null (the `pd.notna` guard) or fails to parse (the
swallowed exception); otherwise one `synonym → raw symbol cell` entry per
parsed synonym (line 117 stores the raw `row['symbol']` value). -/
def synonymEntries (r : LivingRow) : List (String × Cell) :=
  if r.synonyms = Cell.na then []
  else
    match parse_synonyms r.synonyms with
    | some l => l.map (fun syn => (syn, r.symbol))
    | none => []

/-- Lines 101-119: the `synonym -> original_symbol` dict; later rows
overwrite earlier ones (last-write-wins), which `dictGet` implements. -/
def build_synonyms_map (living : List LivingRow) : List (String × Cell) :=
  living.flatMap synonymEntries

/-- One row of the diagnostic table built at lines 157-163, including the
helper `is_decimal` column dropped at line 185. -/
structure DiagRow where
  cpg : String
  ewas_genes : Cell
  uncaptured_gene : String
  synonym_of : Cell
  is_decimal : Bool
deriving DecidableEq, Repr

/-- A diagnostic row after line 185 drops the `is_decimal` column. -/
structure DiagOut where
  cpg : String
  ewas_genes : Cell
  uncaptured_gene : String
  synonym_of : Cell
deriving DecidableEq, Repr

/-- Line 135: `[g.strip() for g in str(genes_str).split(';') if g.strip()]`. -/
def tokensOf (c : Cell) : List String :=
  (((pySplit (pyStr c) ';').map pyStrip).filter (fun t => t ≠ ""))

/-- The per-probe accumulator of the loop at lines 137-170: the
established and unestablished unmapped lists, the diagnostic rows and the
appendix-C rows produced while scanning one probe's tokens. -/
structure GapAcc where
  est : List String
  unest : List String
  diag : List DiagRow
  appendix : List (String × String)
deriving Repr

/-- Loop body, lines 140-170, for one token: decimal tokens always feed
the appendix; canonical symbols are skipped; any other token gets a
diagnostic row whose `synonym_of` is the parent symbol when truthy and the
string `"None"` otherwise; tokens with no truthy parent join the
unestablished (decimal) or established list. -/
def classify_token (ex : List String) (syn : List (String × Cell))
    (cpg : String) (gcell : Cell) (acc : GapAcc) (token : String) : GapAcc :=
  let isDec := containsChar token '.'
  let acc1 :=
    if isDec then { acc with appendix := acc.appendix ++ [(cpg, token)] }
    else acc
  if token ∈ ex then acc1
  else
    let parent := dictGet syn token
    let synOf : Cell :=
      match parent with
      | some c => if pyTruthy c then c else Cell.cstr "None"
      | none => Cell.cstr "None"
    let acc2 :=
      { acc1 with diag := acc1.diag ++ [⟨cpg, gcell, token, synOf, isDec⟩] }
    let addToLists : Bool :=
      match parent with
      | some c => !pyTruthy c
      | none => true
    if addToLists then
      if isDec then { acc2 with unest := acc2.unest ++ [token] }
      else { acc2 with est := acc2.est ++ [token] }
    else acc2

/-- Lines 140-170 over a probe's whole token list. -/
def classify_tokens (ex : List String) (syn : List (String × Cell))
    (cpg : String) (gcell : Cell) (tokens : List String) : GapAcc :=
  tokens.foldl (classify_token ex syn cpg gcell) ⟨[], [], [], []⟩

/-- Lines 172-179: the single combined per-probe column string,
`"Established: g1, g2; Unestablished: h1"`, built only when at least one
list is non-empty. -/
def renderGap (acc : GapAcc) : String :=
  let parts :=
    (if !acc.est.isEmpty then
      ["Established: " ++ pyJoin ", " (sortedStrings acc.est)]
    else []) ++
    (if !acc.unest.isEmpty then
      ["Unestablished: " ++ pyJoin ", " (sortedStrings acc.unest)]
    else [])
  pyJoin "; " parts

/-- The three outputs accumulated across probes (lines 125-127):
`cpg_unmapped_strings` (a dict, read with `dictGet`), `unmapped_records`
and `appendix_c_source`. -/
structure GapOut where
  strings : List (String × String)
  diag : List DiagRow
  appendix : List (String × String)
deriving Repr

/-- Loop body over one row of `cpg_genes` (lines 129-179): null `genes`
rows are skipped entirely; otherwise the probe's tokens are classified and
the combined string is stored only when some list is non-empty. -/
def gapStep (ex : List String) (syn : List (String × Cell))
    (out : GapOut) (p : String × Cell) : GapOut :=
  if p.2 = Cell.na then out
  else
    let acc := classify_tokens ex syn p.1 p.2 (tokensOf p.2)
    { strings :=
        if !acc.est.isEmpty || !acc.unest.isEmpty then
          out.strings ++ [(p.1, renderGap acc)]
        else out.strings
      diag := out.diag ++ acc.diag
      appendix := out.appendix ++ acc.appendix }

/-- Lines 93-193 (`analyze_unmapped_genes`): build the canonical-symbol
set and synonym index, deduplicate the `(cpg, genes)` pairs keeping first
occurrences, classify every probe's tokens, then finalize: the diagnostic
table drops decimal rows and the `is_decimal` column, the appendix table
is deduplicated.  Returns `(cpg_unmapped_strings, unaccounted_df,
appendix_c_df)`. -/
def analyze_unmapped_genes (atlas : List AtlasRow) (living : List LivingRow) :
    List (String × String) × List DiagOut × List (String × String) :=
  let ex := existing_symbols living
  let syn := build_synonyms_map living
  let pairs := dedupFirst (atlas.map (fun r => (r.cpg, r.genes)))
  let res := pairs.foldl (gapStep ex syn) ⟨[], [], []⟩
  (res.strings,
   (res.diag.filter (fun d => d.is_decimal = false)).map
     (fun d => ⟨d.cpg, d.ewas_genes, d.uncaptured_gene, d.synonym_of⟩),
   dedupFirst res.appendix)

/-! ## DiseaseAggregator (`disgenet_utils.annotate_with_disgenet`) -/

/-- One row of the DisGeNET gene-disease-association export
(`data/disgenet_gea.csv`), with the columns `annotate_with_disgenet`
reads.  The `score` column is numeric in the export; `polarity`, `pmYear`
and `reference` arrive from CSV and are kept as raw cells. -/
structure GeaRow where
  gene_symbol : String
  disease_name : String
  score : Frac
  polarity : Cell
  pmYear : Cell
  reference_type : String
  reference : Cell
  source : String
  associationType : String
  diseaseClasses_UMLS_ST : Cell
deriving DecidableEq, Repr

/-- Lines 15-25: the psych-only mode filters rows whose stripped
`diseaseClasses_UMLS_ST` equals the target class; broad mode keeps all. -/
def psych_subset (psych : Bool) (gea : List GeaRow) : List GeaRow :=
  if psych then
    gea.filter
      (fun r =>
        pyStrip (pyStr r.diseaseClasses_UMLS_ST) =
          "Mental or Behavioral Dysfunction (T048)")
  else gea

/-- Lines 33-37 and 79: `polarity_order.get(polarity_filled, 3)` after
`fillna('NAPolarity')`. -/
def pol_rank (c : Cell) : Nat :=
  match c with
  | Cell.na => 1
  | Cell.cstr s =>
    if s = "Positive" then 0
    else if s = "NAPolarity" then 1
    else if s = "Negative" then 2
    else 3
  | _ => 3

/-- A `pmYear_filled` sort key after line 78's `fillna(9999)`: either a
numeric value (numeric cells, and the integer 9999 backfilling NaN) or a
raw string (a year cell that arrived as text). -/
inductive YKey where
  | ynum : Frac → YKey
  | ystr : String → YKey
deriving DecidableEq, Repr

/-- Line 78: `pmYear.fillna(9999)` as a sort key value. -/
def fillYear : Cell → YKey
  | Cell.na => YKey.ynum (intFrac 9999)
  | Cell.cint n => YKey.ynum (intFrac n)
  | Cell.cfloat q => YKey.ynum q
  | Cell.cstr s => YKey.ystr s

/-- Whether a filled year key is numeric. -/
def YKey.isNum : YKey → Bool
  | YKey.ynum _ => true
  | YKey.ystr _ => false

/-- Ordering of filled year keys inside one homogeneous group: numbers
compare numerically, strings lexicographically (Python `<` on `str`).
Mixed pairs never reach a sort — `evidence_rows_for` raises TypeError
first, as pandas does when its lexsort compares a string year with a
number — so the mixed branches are arbitrary. -/
def ykeyLeb : YKey → YKey → Bool
  | YKey.ynum p, YKey.ynum q => fracLeb p q
  | YKey.ystr s, YKey.ystr t => !strLtb t s
  | _, _ => true

/-- One element of the `valid_diseases` list (lines 62-66). -/
structure DiseaseEntry where
  name : String
  score_val : Frac
  display : String
deriving DecidableEq, Repr

/-- Pandas `Series.max()` over the scores of a non-empty row group. -/
def listMax : List Frac → Frac
  | [] => intFrac 0
  | x :: xs => xs.foldl (fun acc y => if fracLeb acc y then y else acc) x

/-- Lines 52-66 for one disease name: the value-deduplicated score list
decides between the agreed value and the `"error"` sentinel with a
max-score sort key. -/
def entry_for (gd : List GeaRow) (d : String) : DiseaseEntry :=
  let rows := gd.filter (fun r => decide (r.disease_name = d))
  let scores := dedupFirstBy fracEqb (rows.map GeaRow.score)
  match scores with
  | [s] => ⟨d, s, d ++ ", " ++ strOfFloat s⟩
  | _ :: _ :: _ => ⟨d, listMax (rows.map GeaRow.score), d ++ ", error"⟩
  | [] => ⟨d, intFrac 0, d ++ ", "⟩

/-- Lines 48-66: one entry per disease in order of first appearance
(`Series.unique`). -/
def valid_entries (gd : List GeaRow) : List DiseaseEntry :=
  (dedupFirst (gd.map GeaRow.disease_name)).map (entry_for gd)

/-- Line 68: `valid_diseases.sort(key=score_val, reverse=True)` — stable
descending by score, no secondary key. -/
def sorted_entries (gd : List GeaRow) : List DiseaseEntry :=
  sortByLe (fun a b => fracLeb b.score_val a.score_val) (valid_entries gd)

/-- Lines 89-98: the reference rendering; a `PMID` reference is coerced
through `int` with a fallback to the raw string, any other type renders
`"{value_or_NA} ({source}, {associationType})"`. -/
def refString (r : GeaRow) : String :=
  if r.reference_type = "PMID" then
    match pyInt r.reference with
    | Except.ok n => toString n
    | Except.error _ => pyStr r.reference
  else
    let rv := if r.reference ≠ Cell.na then pyStr r.reference else "NA"
    rv ++ " (" ++ r.source ++ ", " ++ r.associationType ++ ")"

/-- Lines 84-100: one evidence line.  The year string is `str(int(year))`
for non-null years — numeric cells truncate, an int-convertible string
year parses, and a junk string raises ValueError, unguarded in the
source. -/
def render_evidence (d : String) (r : GeaRow) : Except String String := do
  let pol := if r.polarity = Cell.na then "NAPolarity" else pyStr r.polarity
  let yearStr ←
    if r.pmYear = Cell.na then pure "NA"
    else do
      let n ← pyInt r.pmYear
      pure (toString n)
  pure (d ++ ", " ++ pol ++ ", " ++ yearStr ++ ", " ++ refString r)

/-- Lines 75-81: the disease's rows sorted ascending by `(pol_rank,
pmYear_filled)` with pandas' stable lexsort.  Sorting succeeds when the
filled year keys are homogeneous — all numeric (numbers plus the integer
9999 backfilling NaN) or all strings, which compare among themselves —
and raises TypeError when a group of two or more rows mixes a string
year with a number, since every element of a sorted column takes part in
at least one comparison; a single-row group performs no comparison and
always sorts. -/
def evidence_rows_for (gd : List GeaRow) (d : String) :
    Except String (List GeaRow) :=
  let rows := gd.filter (fun r => decide (r.disease_name = d))
  let keyed := rows.map (fun r => (r, pol_rank r.polarity, fillYear r.pmYear))
  if keyed.all (fun k => k.2.2.isNum) || keyed.all (fun k => !k.2.2.isNum) then
    Except.ok
      ((sortByLe
        (fun a b =>
          decide (a.2.1 < b.2.1) ||
            (decide (a.2.1 = b.2.1) && ykeyLeb a.2.2 b.2.2))
        keyed).map Prod.fst)
  else Except.error "TypeError"

/-- Lines 39-103 for one gene symbol: empty evidence yields two explicit
NaN cells (`none`); otherwise the summary column joins the sorted entry
displays and the evidence column joins every group's rendered lines
(each group's rows rendered in sorted order, so a junk year string
raises at the first offending row), both with `";\n"`. -/
def annotate_gene (subset : List GeaRow) (g : String) :
    Except String (Option String × Option String) := do
  let gd := subset.filter (fun r => decide (r.gene_symbol = g))
  if gd.isEmpty then pure (none, none)
  else do
    let entries := sorted_entries gd
    let lineGroups ← mapExcept
      (fun e => do
        let rows ← evidence_rows_for gd e.name
        mapExcept (render_evidence e.name) rows)
      entries
    pure
      (some (pyJoin ";\n" (entries.map DiseaseEntry.display)),
       some (pyJoin ";\n" lineGroups.flatten))

/-- Lines 4-108 (`annotate_with_disgenet`): pick the mode's subset and
annotate every input symbol row with the two new columns. -/
def annotate_with_disgenet (symbols : List String) (gea : List GeaRow)
    (psych : Bool) :
    Except String (List (String × Option String × Option String)) :=
  let subset := psych_subset psych gea
  mapExcept
    (fun g => do
      let p ← annotate_gene subset g
      pure (g, p.1, p.2))
    symbols

/-! ## Concrete inputs used by the claim scenarios and witnesses -/

/-- A minimal expanded mapping row for probe `cg1`. -/
def mrowCg1 : MRow := ⟨"cg1", [Cell.cstr "chr11"]⟩

/-- Atlas record `(trait="BMI", rank=10, total=100, correlation="pos",
pmid=123)` for probe `cg1` (spec scenario). -/
def atlasBMI : AtlasRow :=
  ⟨"cg1", Cell.cstr "BMI", Cell.cint 123, Cell.cint 10, Cell.cint 100,
   Cell.cstr "pos", Cell.na⟩

/-- Atlas record `(trait="Obesity", rank=None, total=100,
correlation="neg", pmid=456)` for probe `cg1` (spec scenario). -/
def atlasObesity : AtlasRow :=
  ⟨"cg1", Cell.cstr "Obesity", Cell.cint 456, Cell.na, Cell.cint 100,
   Cell.cstr "neg", Cell.na⟩

/-- Atlas rows for two traits of equal (fallback) score, named so that
ascending and descending lexical tie-break orders differ. -/
def atlasAlpha : AtlasRow :=
  ⟨"cg1", Cell.cstr "Alpha", Cell.na, Cell.na, Cell.na, Cell.na, Cell.na⟩

/-- Second equal-score trait row for the tie-break scenario. -/
def atlasBeta : AtlasRow :=
  ⟨"cg1", Cell.cstr "Beta", Cell.na, Cell.na, Cell.na, Cell.na, Cell.na⟩

/-- Disease-evidence rows for gene `G`: diseases `B` then `A`, equal
score `0.5`, to exhibit the disease-side tie order. -/
def geaTieB : GeaRow :=
  ⟨"G", "B", ⟨5, 9⟩, Cell.na, Cell.na, "PMID", Cell.cint 1, "S", "T", Cell.na⟩

/-- Second equal-score disease row (disease `A`, listed after `B`). -/
def geaTieA : GeaRow :=
  ⟨"G", "A", ⟨5, 9⟩, Cell.na, Cell.na, "PMID", Cell.cint 2, "S", "T", Cell.na⟩

/-- A mapping record whose raw gene field is the empty string (present
but empty, as opposed to missing). -/
def mapRecEmptyGene : MapRec :=
  ⟨"cg9", Cell.cstr "chr1", Cell.cint 100, Cell.cint 200, Cell.cstr ""⟩

/-- The living-file rows of `tests/test_cpg_integration.py::
test_analyze_unmapped_genes`: `GENE1` with JSON synonyms, `GENE2` with
none. -/
def testLiving : List LivingRow :=
  [⟨Cell.cstr "GENE1", Cell.cstr "[\"ALIAS1\", \"ALIAS2\"]"⟩,
   ⟨Cell.cstr "GENE2", Cell.na⟩]

/-- The atlas rows of the same unit test: `cg1` reports
`GENE1;NEWGENE` (twice), `cg2` reports `ALIAS1;DECIMAL.1;ANOTHER`
(three times). -/
def testAtlas : List AtlasRow :=
  [⟨"cg1", Cell.na, Cell.na, Cell.na, Cell.na, Cell.na, Cell.cstr "GENE1;NEWGENE"⟩,
   ⟨"cg1", Cell.na, Cell.na, Cell.na, Cell.na, Cell.na, Cell.cstr "GENE1;NEWGENE"⟩,
   ⟨"cg2", Cell.na, Cell.na, Cell.na, Cell.na, Cell.na, Cell.cstr "ALIAS1;DECIMAL.1;ANOTHER"⟩,
   ⟨"cg2", Cell.na, Cell.na, Cell.na, Cell.na, Cell.na, Cell.cstr "ALIAS1;DECIMAL.1;ANOTHER"⟩,
   ⟨"cg2", Cell.na, Cell.na, Cell.na, Cell.na, Cell.na, Cell.cstr "ALIAS1;DECIMAL.1;ANOTHER"⟩]

/-- A living file whose only symbol `GENE1` owns the decimal-containing
synonym `AB.1`. -/
def aliasLiving : List LivingRow :=
  [⟨Cell.cstr "GENE1", Cell.cstr "[\"AB.1\"]"⟩]

/-- An atlas reporting exactly that decimal synonym for probe `cg1`. -/
def aliasAtlas : List AtlasRow :=
  [⟨"cg1", Cell.na, Cell.na, Cell.na, Cell.na, Cell.na, Cell.cstr "AB.1"⟩]

/-- Disease-evidence row: gene `G`, disease `D`, score `0.5`, Positive,
year 2001, PMID 11. -/
def geaPosRow : GeaRow :=
  ⟨"G", "D", ⟨5, 9⟩, Cell.cstr "Positive", Cell.cint 2001, "PMID",
   Cell.cint 11, "S", "T", Cell.na⟩

/-- Conflicting row for the same (gene, disease): score `0.3`, Negative,
year 1999, PMID 12. -/
def geaNegRow : GeaRow :=
  ⟨"G", "D", ⟨3, 9⟩, Cell.cstr "Negative", Cell.cint 1999, "PMID",
   Cell.cint 12, "S", "T", Cell.na⟩

/-! ## Generic lemmas: `mapExcept` -/

theorem mapExcept_nil (f : α → Except String β) : mapExcept f [] = Except.ok [] := rfl

theorem mapExcept_cons (f : α → Except String β) (x : α) (xs : List α) :
    mapExcept f (x :: xs) =
      match f x with
      | Except.error e => Except.error e
      | Except.ok y =>
        match mapExcept f xs with
        | Except.error e => Except.error e
        | Except.ok ys => Except.ok (y :: ys) := rfl

theorem mapExcept_ok_cons_iff (f : α → Except String β) (x : α) (xs : List α)
    (ys : List β) :
    mapExcept f (x :: xs) = Except.ok ys ↔
      ∃ y ys', f x = Except.ok y ∧ mapExcept f xs = Except.ok ys' ∧
        ys = y :: ys' := by
  rw [mapExcept_cons]
  cases hfx : f x with
  | error e => simp
  | ok y =>
    cases hrec : mapExcept f xs with
    | error e => simp
    | ok ys' =>
      simp only []
      constructor
      · intro h
        cases h
        exact ⟨y, ys', rfl, rfl, rfl⟩
      · rintro ⟨y', ys'', hy, hys, rfl⟩
        cases hy
        cases hys
        rfl

theorem mapExcept_ok_length (f : α → Except String β) :
    ∀ (l : List α) (ys : List β), mapExcept f l = Except.ok ys →
      ys.length = l.length := by
  intro l
  induction l with
  | nil =>
    intro ys h
    rw [mapExcept_nil] at h
    cases h
    rfl
  | cons x xs ih =>
    intro ys h
    rw [mapExcept_ok_cons_iff] at h
    obtain ⟨y, ys', _, hys, rfl⟩ := h
    simp [ih ys' hys]

theorem mapExcept_ok_getElem (f : α → Except String β) :
    ∀ (l : List α) (ys : List β), mapExcept f l = Except.ok ys →
      ∀ (i : Nat) (h1 : i < l.length) (h2 : i < ys.length),
        f (l[i]) = Except.ok (ys[i]) := by
  intro l
  induction l with
  | nil => intro ys h i h1; exact absurd h1 (by simp)
  | cons x xs ih =>
    intro ys h i h1 h2
    rw [mapExcept_ok_cons_iff] at h
    obtain ⟨y, ys', hy, hys, rfl⟩ := h
    cases i with
    | zero => simpa using hy
    | succ j =>
      have hj1 : j < xs.length := by simpa using h1
      have hj2 : j < ys'.length := by simpa using h2
      simpa using ih ys' hys j hj1 hj2

theorem mapExcept_map_proj (f : α → Except String β) (proj : β → α)
    (hf : ∀ x y, f x = Except.ok y → proj y = x) :
    ∀ (l : List α) (ys : List β), mapExcept f l = Except.ok ys →
      ys.map proj = l := by
  intro l
  induction l with
  | nil =>
    intro ys h
    rw [mapExcept_nil] at h
    cases h
    rfl
  | cons x xs ih =>
    intro ys h
    rw [mapExcept_ok_cons_iff] at h
    obtain ⟨y, ys', hy, hys, rfl⟩ := h
    simp [hf x y hy, ih ys' hys]

/-! ## Generic lemmas: stable insertion sort -/

theorem insSorted_perm (le : α → α → Bool) (x : α) :
    ∀ (l : List α), (insSorted le x l).Perm (x :: l) := by
  intro l
  induction l with
  | nil => exact List.Perm.refl _
  | cons y ys ih =>
    simp only [insSorted]
    by_cases h : le x y = true
    · simp [h]
    · simp only [h, if_false, Bool.false_eq_true]
      exact (ih.cons y).trans (List.Perm.swap x y ys)

theorem sortByLe_perm (le : α → α → Bool) :
    ∀ (l : List α), (sortByLe le l).Perm l := by
  intro l
  induction l with
  | nil => exact List.Perm.refl _
  | cons x xs ih =>
    simp only [sortByLe]
    exact (insSorted_perm le x (sortByLe le xs)).trans (ih.cons x)

theorem mem_insSorted (le : α → α → Bool) (x z : α) (l : List α) :
    z ∈ insSorted le x l ↔ z = x ∨ z ∈ l := by
  rw [(insSorted_perm le x l).mem_iff]
  simp

theorem insSorted_pairwise (le : α → α → Bool)
    (htot : ∀ a b, le a b = true ∨ le b a = true)
    (htrans : ∀ a b c, le a b = true → le b c = true → le a c = true)
    (x : α) :
    ∀ (l : List α), l.Pairwise (fun a b => le a b = true) →
      (insSorted le x l).Pairwise (fun a b => le a b = true) := by
  intro l
  induction l with
  | nil => intro _; simp [insSorted]
  | cons y ys ih =>
    intro h
    rw [List.pairwise_cons] at h
    obtain ⟨hy, hys⟩ := h
    simp only [insSorted]
    by_cases hxy : le x y = true
    · simp only [hxy, if_true]
      rw [List.pairwise_cons]
      refine ⟨?_, ?_⟩
      · intro z hz
        rcases List.mem_cons.mp hz with rfl | hz'
        · exact hxy
        · exact htrans x y z hxy (hy z hz')
      · rw [List.pairwise_cons]
        exact ⟨hy, hys⟩
    · simp only [hxy, if_false, Bool.false_eq_true]
      rw [List.pairwise_cons]
      refine ⟨?_, ih hys⟩
      intro z hz
      rcases (mem_insSorted le x z ys).mp hz with rfl | hz'
      · rcases htot z y with h' | h'
        · exact absurd h' hxy
        · exact h'
      · exact hy z hz'

theorem sortByLe_pairwise (le : α → α → Bool)
    (htot : ∀ a b, le a b = true ∨ le b a = true)
    (htrans : ∀ a b c, le a b = true → le b c = true → le a c = true) :
    ∀ (l : List α), (sortByLe le l).Pairwise (fun a b => le a b = true) := by
  intro l
  induction l with
  | nil => simp [sortByLe]
  | cons x xs ih =>
    simp only [sortByLe]
    exact insSorted_pairwise le htot htrans x (sortByLe le xs) ih

theorem insSorted_filter_neg (le : α → α → Bool) (p : α → Bool) (x : α)
    (hpx : p x = false) :
    ∀ (l : List α), (insSorted le x l).filter p = l.filter p := by
  intro l
  induction l with
  | nil => simp [insSorted, hpx]
  | cons y ys ih =>
    simp only [insSorted]
    by_cases hxy : le x y = true
    · simp [hxy, List.filter_cons, hpx]
    · simp only [hxy, if_false, Bool.false_eq_true]
      rw [List.filter_cons, List.filter_cons]
      cases hpy : p y <;> simp [ih]

theorem insSorted_filter_pos (le : α → α → Bool) (p : α → Bool) (x : α)
    (hpx : p x = true) (hle : ∀ b, p b = true → le x b = true) :
    ∀ (l : List α), (insSorted le x l).filter p = x :: l.filter p := by
  intro l
  induction l with
  | nil => simp [insSorted, hpx]
  | cons y ys ih =>
    simp only [insSorted]
    by_cases hxy : le x y = true
    · simp [hxy, List.filter_cons, hpx]
    · simp only [hxy, if_false, Bool.false_eq_true]
      have hpy : p y = false := by
        cases hpy : p y
        · rfl
        · exact absurd (hle y hpy) hxy
      rw [List.filter_cons, List.filter_cons]
      simp [hpy, ih]

theorem sortByLe_filter_stable (le : α → α → Bool) (p : α → Bool)
    (hp : ∀ a b, p a = true → p b = true → le a b = true) :
    ∀ (l : List α), (sortByLe le l).filter p = l.filter p := by
  intro l
  induction l with
  | nil => rfl
  | cons x xs ih =>
    simp only [sortByLe]
    cases hpx : p x
    · rw [insSorted_filter_neg le p x hpx, ih, List.filter_cons, hpx]
      simp
    · rw [insSorted_filter_pos le p x hpx (fun b hb => hp x b hpx hb), ih,
        List.filter_cons, hpx]
      simp

/-! ## Generic lemmas: first-occurrence deduplication -/

theorem dedupFirstAux_subset (eqb : α → α → Bool) :
    ∀ (l seen : List α) (x : α), x ∈ dedupFirstAux eqb seen l → x ∈ l := by
  intro l
  induction l with
  | nil => intro seen x h; exact absurd h (by simp [dedupFirstAux])
  | cons y ys ih =>
    intro seen x h
    simp only [dedupFirstAux] at h
    by_cases hy : (seen.any fun z => eqb y z) = true
    · rw [if_pos hy] at h
      exact List.mem_cons_of_mem y (ih seen x h)
    · rw [if_neg hy] at h
      rcases List.mem_cons.mp h with rfl | h'
      · exact List.mem_cons_self x ys
      · exact List.mem_cons_of_mem y (ih (y :: seen) x h')

theorem seenAny_eq_mem [DecidableEq α] (seen : List α) (x : α) :
    (seen.any fun z => decide (x = z)) = true ↔ x ∈ seen := by
  rw [List.any_eq_true]
  constructor
  · rintro ⟨z, hz, h⟩
    rw [decide_eq_true_eq] at h
    exact h ▸ hz
  · intro h
    exact ⟨x, h, by simp⟩

theorem mem_dedupFirstAux_of_mem [DecidableEq α] :
    ∀ (l seen : List α) (x : α), x ∈ l →
      x ∈ dedupFirstAux (fun a b => decide (a = b)) seen l ∨ x ∈ seen := by
  intro l
  induction l with
  | nil => intro seen x h; exact absurd h (by simp)
  | cons y ys ih =>
    intro seen x h
    simp only [dedupFirstAux]
    by_cases hy : (seen.any fun z => decide (y = z)) = true
    · rw [if_pos hy]
      rcases List.mem_cons.mp h with rfl | h'
      · exact Or.inr ((seenAny_eq_mem seen x).mp hy)
      · exact ih seen x h'
    · rw [if_neg hy]
      rcases List.mem_cons.mp h with rfl | h'
      · exact Or.inl (List.mem_cons_self x _)
      · rcases ih (y :: seen) x h' with h'' | h''
        · exact Or.inl (List.mem_cons_of_mem y h'')
        · rcases List.mem_cons.mp h'' with rfl | h3
          · exact Or.inl (List.mem_cons_self x _)
          · exact Or.inr h3

theorem mem_dedupFirst_iff [DecidableEq α] (l : List α) (x : α) :
    x ∈ dedupFirst l ↔ x ∈ l := by
  constructor
  · exact dedupFirstAux_subset _ l [] x
  · intro h
    rcases mem_dedupFirstAux_of_mem l [] x h with h' | h'
    · exact h'
    · exact absurd h' (by simp)

theorem not_mem_dedupFirstAux_of_mem_seen [DecidableEq α] :
    ∀ (l seen : List α) (x : α), x ∈ seen →
      x ∉ dedupFirstAux (fun a b => decide (a = b)) seen l := by
  intro l
  induction l with
  | nil => intro seen x _; simp [dedupFirstAux]
  | cons y ys ih =>
    intro seen x hx
    simp only [dedupFirstAux]
    by_cases hy : (seen.any fun z => decide (y = z)) = true
    · rw [if_pos hy]
      exact ih seen x hx
    · rw [if_neg hy]
      intro hmem
      rcases List.mem_cons.mp hmem with rfl | h'
      · exact hy ((seenAny_eq_mem seen x).mpr hx)
      · exact ih (y :: seen) x (List.mem_cons_of_mem y hx) h'

theorem nodup_dedupFirstAux [DecidableEq α] :
    ∀ (l seen : List α),
      (dedupFirstAux (fun a b => decide (a = b)) seen l).Nodup := by
  intro l
  induction l with
  | nil => intro seen; simp [dedupFirstAux]
  | cons y ys ih =>
    intro seen
    simp only [dedupFirstAux]
    by_cases hy : (seen.any fun z => decide (y = z)) = true
    · rw [if_pos hy]; exact ih seen
    · rw [if_neg hy]
      refine List.nodup_cons.mpr ⟨?_, ih (y :: seen)⟩
      exact not_mem_dedupFirstAux_of_mem_seen ys (y :: seen) y
        (List.mem_cons_self y seen)

theorem nodup_dedupFirst [DecidableEq α] (l : List α) : (dedupFirst l).Nodup :=
  nodup_dedupFirstAux l []

theorem listLtb_irrefl : ∀ (l : List Char), listLtb l l = false := by
  intro l
  induction l with
  | nil => rfl
  | cons x xs ih => simp [listLtb, lt_irrefl, ih]

theorem listLtb_asymm :
    ∀ (a b : List Char), listLtb a b = true → listLtb b a = false := by
  intro a
  induction a with
  | nil =>
    intro b h
    cases b with
    | nil => exact absurd h (by simp [listLtb])
    | cons y ys => rfl
  | cons x xs ih =>
    intro b h
    cases b with
    | nil => exact absurd h (by simp [listLtb])
    | cons y ys =>
      simp only [listLtb] at h ⊢
      by_cases hxy : x < y
      · have hyx : ¬ y < x := lt_asymm hxy
        simp [hyx, hxy]
      · by_cases hyx : y < x
        · rw [if_neg hxy, if_pos hyx] at h
          cases h
        · rw [if_neg hxy, if_neg hyx] at h
          rw [if_neg hyx, if_neg hxy]
          exact ih ys h

theorem listLtb_eq_of_not_both :
    ∀ (a b : List Char), listLtb a b = false → listLtb b a = false → a = b := by
  intro a
  induction a with
  | nil =>
    intro b h1 _
    cases b with
    | nil => rfl
    | cons y ys => exact absurd h1 (by simp [listLtb])
  | cons x xs ih =>
    intro b h1 h2
    cases b with
    | nil => exact absurd h2 (by simp [listLtb])
    | cons y ys =>
      simp only [listLtb] at h1 h2
      by_cases hxy : x < y
      · rw [if_pos hxy] at h1; cases h1
      · by_cases hyx : y < x
        · rw [if_pos hyx] at h2; cases h2
        · rw [if_neg hxy, if_neg hyx] at h1
          rw [if_neg hyx, if_neg hxy] at h2
          have hx : x = y := le_antisymm (le_of_not_lt hyx) (le_of_not_lt hxy)
          rw [hx, ih ys h1 h2]

theorem listLtb_negtrans :
    ∀ (a b c : List Char), listLtb a b = false → listLtb b c = false →
      listLtb a c = false := by
  intro a
  induction a with
  | nil =>
    intro b c h1 h2
    cases b with
    | cons y ys => exact absurd h1 (by simp [listLtb])
    | nil =>
      cases c with
      | cons z zs => exact absurd h2 (by simp [listLtb])
      | nil => rfl
  | cons x xs ih =>
    intro b c h1 h2
    cases b with
    | nil =>
      cases c with
      | cons z zs => exact absurd h2 (by simp [listLtb])
      | nil => rfl
    | cons y ys =>
      cases c with
      | nil => rfl
      | cons z zs =>
        simp only [listLtb] at h1 h2 ⊢
        by_cases hxy : x < y
        · rw [if_pos hxy] at h1; cases h1
        · by_cases hyz : y < z
          · rw [if_pos hyz] at h2; cases h2
          · by_cases hyx : y < x
            · by_cases hzy' : z < y
              · have hzx : z < x := lt_trans hzy' hyx
                rw [if_neg (lt_asymm hzx), if_pos hzx]
              · have hyz' : y = z :=
                  le_antisymm (le_of_not_lt hzy') (le_of_not_lt hyz)
                have hzx : z < x := hyz' ▸ hyx
                rw [if_neg (lt_asymm hzx), if_pos hzx]
            · have hxy' : x = y := le_antisymm (le_of_not_lt hyx) (le_of_not_lt hxy)
              by_cases hzy : z < y
              · have hzx : z < x := hxy' ▸ hzy
                rw [if_neg (lt_asymm hzx), if_pos hzx]
              · have hyz' : y = z := le_antisymm (le_of_not_lt hzy) (le_of_not_lt hyz)
                rw [if_neg hxy] at h1
                rw [if_neg hyx] at h1
                rw [if_neg hyz] at h2
                rw [if_neg hzy] at h2
                have hxz : ¬ x < z := by rw [hxy', hyz']; exact lt_irrefl z
                have hzx : ¬ z < x := by rw [hxy', hyz']; exact lt_irrefl z
                rw [if_neg hxz, if_neg hzx]
                exact ih ys zs h1 h2

theorem string_toList_inj {a b : String} (h : a.toList = b.toList) : a = b := by
  cases a
  cases b
  exact congrArg String.mk (by simpa [String.toList] using h)

theorem strLtb_irrefl (a : String) : strLtb a a = false := listLtb_irrefl _

theorem strLtb_asymm {a b : String} (h : strLtb a b = true) :
    strLtb b a = false := listLtb_asymm _ _ h

theorem strLtb_eq_of_not_both {a b : String} (h1 : strLtb a b = false)
    (h2 : strLtb b a = false) : a = b :=
  string_toList_inj (listLtb_eq_of_not_both _ _ h1 h2)

theorem strLtb_negtrans {a b c : String} (h1 : strLtb a b = false)
    (h2 : strLtb b c = false) : strLtb a c = false :=
  listLtb_negtrans _ _ _ h1 h2

/-! ## Generic lemmas: fraction order -/

theorem frac_den_pos (q : Frac) : 0 < q.den := by
  unfold Frac.den
  omega

theorem fracLeb_total (a b : Frac) : fracLeb a b = true ∨ fracLeb b a = true := by
  simp only [fracLeb, decide_eq_true_eq]
  exact Int.le_total _ _

theorem fracLeb_trans {a b c : Frac} (h1 : fracLeb a b = true)
    (h2 : fracLeb b c = true) : fracLeb a c = true := by
  simp only [fracLeb, decide_eq_true_eq] at h1 h2 ⊢
  have ha := frac_den_pos a
  have hb := frac_den_pos b
  have hc := frac_den_pos c
  have h3 : a.num * b.den * c.den ≤ b.num * a.den * c.den :=
    mul_le_mul_of_nonneg_right h1 hc.le
  have h4 : b.num * c.den * a.den ≤ c.num * b.den * a.den :=
    mul_le_mul_of_nonneg_right h2 ha.le
  have h5 : a.num * c.den * b.den ≤ c.num * a.den * b.den := by nlinarith
  exact le_of_mul_le_mul_right h5 hb

theorem fracLeb_of_eqb_pair {a b q : Frac} (h1 : fracEqb a q = true)
    (h2 : fracEqb b q = true) : fracLeb a b = true := by
  simp only [fracEqb, beq_iff_eq] at h1 h2
  simp only [fracLeb, decide_eq_true_eq]
  have hq := frac_den_pos q
  have h3 : a.num * q.den * b.den = q.num * a.den * b.den := by rw [h1]
  have h4 : b.num * q.den * a.den = q.num * b.den * a.den := by rw [h2]
  have h5 : a.num * b.den * q.den = b.num * a.den * q.den := by nlinarith
  have h6 : a.num * b.den = b.num * a.den := by
    exact mul_right_cancel₀ (ne_of_gt hq) h5
  exact le_of_eq h6

/-! ## Abort and success lemmas for the attachment and evidence pipelines -/

theorem aggregate_traits_error (rows : List AtlasRow) :
    ∃ e, aggregate_traits rows = Except.error e := by
  unfold aggregate_traits
  cases hm : mapExcept mkTraitEntry rows with
  | error e => exact ⟨e, rfl⟩
  | ok es => exact ⟨"TypeError", rfl⟩

theorem evidence_rows_for_isOk (gd : List GeaRow) (d : String)
    (h : ∀ r ∈ gd.filter (fun r => decide (r.disease_name = d)),
      (fillYear r.pmYear).isNum = true) :
    (evidence_rows_for gd d).isOk = true := by
  unfold evidence_rows_for
  dsimp only
  have hall : ((gd.filter (fun r => decide (r.disease_name = d))).map
      (fun r => (r, pol_rank r.polarity, fillYear r.pmYear))).all
      (fun k => k.2.2.isNum) = true := by
    rw [List.all_eq_true]
    intro k hk
    obtain ⟨r, hr, rfl⟩ := List.mem_map.mp hk
    exact h r hr
  split
  · rfl
  · rename_i hcond
    exact absurd (by rw [hall]; exact Bool.true_or _) hcond

/-- C8 (code bug): for the concrete input where the Atlas records for
probe `cg1` are `(trait="BMI", rank=10, total=100, correlation="pos",
pmid=123)` and `(trait="Obesity", rank=None, total=100,
correlation="neg", pmid=456)`, the claimed (and unit-tested) combined
string would need the per-row entries `"BMI, 0.100, hyper, 123"` and
`"Obesity, 0.000, hypo, 456"`, which the entry loop does build (first
conjunct: rank-score `rank/total` to three decimals when rank and a
non-zero total are present, `"0.000"` otherwise, `"pos" ↦ "hyper"`,
`"neg" ↦ "hypo"`); but the attachment never emits it — line 76's
`rows.sort(key=..., reverse=[True, False])` raises TypeError, aborting
the whole call (second conjunct). -/
theorem c8_trait_scenario :
    mapExcept mkTraitEntry [atlasBMI, atlasObesity] =
        Except.ok
          [⟨"BMI", "0.100", "BMI, 0.100, hyper, 123"⟩,
           ⟨"Obesity", "0.000", "Obesity, 0.000, hypo, 456"⟩] ∧
      attach_ewas_atlas_traits [mrowCg1] [atlasBMI, atlasObesity] =
        Except.error "TypeError" := by
  decide

/-- C9: for every subject gene with zero matching disease-evidence rows in
the selected mode's subset, `annotate_with_disgenet` stores an explicit
null (`none`, modelling `np.nan`) in both the summary and the evidence
columns — never an empty string or `"n/a"`. -/
theorem c9_absent_evidence_null (symbols : List String) (gea : List GeaRow)
    (psych : Bool) (out : List (String × Option String × Option String))
    (hok : annotate_with_disgenet symbols gea psych = Except.ok out)
    (i : Nat) (h1 : i < symbols.length) (h2 : i < out.length)
    (hempty :
      (psych_subset psych gea).filter
        (fun r => decide (r.gene_symbol = symbols[i])) = []) :
    out[i] = (symbols[i], none, none) := by
  have hstep := mapExcept_ok_getElem _ symbols out hok i h1 h2
  have hgene :
      annotate_gene (psych_subset psych gea) (symbols[i]) =
        Except.ok (none, none) := by
    unfold annotate_gene
    rw [hempty]
    rfl
  rw [hgene] at hstep
  have hfinal :
      (Except.ok (symbols[i], none, none) :
        Except String (String × Option String × Option String)) =
        Except.ok out[i] := hstep
  injection hfinal with h
  exact h.symm

/-- Witness for C9 at a concrete input: gene `G` with an empty evidence
table. -/
theorem c9_absent_evidence_null_witness :
    annotate_with_disgenet ["G"] [] false = Except.ok [("G", none, none)] ∧
      (["G"] : List String).length = 1 ∧
      ("G", (none : Option String), (none : Option String)) =
        ("G", none, none) := by
  refine ⟨?_, rfl, ?_⟩
  · decide
  · exact c9_absent_evidence_null ["G"] [] false [("G", none, none)]
      (by decide) 0 (by decide) (by decide) (by decide)

/-- C4 counterexample: for a mapping record whose raw gene field is the
empty string (present but empty, not missing), the expansion yields one
row whose `gene_symbol` is the empty string, not the sentinel
`"unmapped"` — refuting the claim for empty (as opposed to missing)
fields. -/
theorem c4_counterexample :
    expand_cpg_gene_mappings [mapRecEmptyGene] =
        [(mapRecEmptyGene, Cell.cstr "")] ∧
      Cell.cstr "" ≠ Cell.cstr "unmapped" := by
  decide

/-- C4 amended: a missing (NaN) raw gene field yields exactly one output
row with `gene_symbol = "unmapped"` (and the filled field value); an
empty-string raw gene field instead yields exactly one row whose
`gene_symbol` is the empty string. -/
theorem c4_amended_expansion (l1 l2 : List MapRec) (r : MapRec) :
    (r.unique_gene_name = Cell.na →
      expand_cpg_gene_mappings (l1 ++ r :: l2) =
        expand_cpg_gene_mappings l1 ++
          [({ r with unique_gene_name := Cell.cstr "unmapped" },
            Cell.cstr "unmapped")] ++
          expand_cpg_gene_mappings l2) ∧
    (r.unique_gene_name = Cell.cstr "" →
      expand_cpg_gene_mappings (l1 ++ r :: l2) =
        expand_cpg_gene_mappings l1 ++ [(r, Cell.cstr "")] ++
          expand_cpg_gene_mappings l2) := by
  have hsplit : pySplit "unmapped" ',' = ["unmapped"] := by decide
  have hstrip : pyStrip "unmapped" = "unmapped" := by decide
  have hsplitE : pySplit "" ',' = [""] := by decide
  have hstripE : pyStrip "" = "" := by decide
  obtain ⟨cpg, chr, s38, e38, ugn⟩ := r
  constructor
  · intro h
    simp only [] at h
    subst h
    have h1 : expandRecord ⟨cpg, chr, s38, e38, Cell.na⟩ =
        [(⟨cpg, chr, s38, e38, Cell.cstr "unmapped"⟩, Cell.cstr "unmapped")] := by
      unfold expandRecord
      simp [hsplit, hstrip]
    unfold expand_cpg_gene_mappings
    rw [List.flatMap_append, List.flatMap_cons, h1]
    simp
  · intro h
    simp only [] at h
    subst h
    have h1 : expandRecord ⟨cpg, chr, s38, e38, Cell.cstr ""⟩ =
        [(⟨cpg, chr, s38, e38, Cell.cstr ""⟩, Cell.cstr "")] := by
      unfold expandRecord
      simp [hsplitE, hstripE]
    unfold expand_cpg_gene_mappings
    rw [List.flatMap_append, List.flatMap_cons, h1]
    simp

/-- Witness for C4 at concrete inputs: one missing field and one empty
field. -/
theorem c4_amended_expansion_witness :
    expand_cpg_gene_mappings
        [⟨"cgA", Cell.cstr "chr1", Cell.cint 1, Cell.cint 2, Cell.na⟩] =
      [(⟨"cgA", Cell.cstr "chr1", Cell.cint 1, Cell.cint 2,
          Cell.cstr "unmapped"⟩, Cell.cstr "unmapped")] ∧
    expand_cpg_gene_mappings [mapRecEmptyGene] =
      [(mapRecEmptyGene, Cell.cstr "")] := by
  constructor
  · have h := (c4_amended_expansion [] []
      ⟨"cgA", Cell.cstr "chr1", Cell.cint 1, Cell.cint 2, Cell.na⟩).1 rfl
    simpa using h
  · have h := (c4_amended_expansion [] [] mapRecEmptyGene).2 rfl
    simpa using h

/-- C5 (code bug): for the gap-analysis input of
`tests/test_cpg_integration.py::test_analyze_unmapped_genes`, the function
in `cpg_integration.py` returns a three-component result whose per-probe
column is ONE combined string per probe
(`"Established: ANOTHER; Unestablished: DECIMAL.1"` for `cg2`, comma- and
`"; "`-joined), not the two separate `";\n"`-joined per-probe strings
(`ewas_unmapped_gene` / `ewas_unmapped_regions`) that its unit test and
its caller `augment_living_file.py` (which also passes a third
`mapping_df` argument and unpacks FOUR return values) require. -/
theorem c5_single_combined_string :
    analyze_unmapped_genes testAtlas testLiving =
      ([("cg1", "Established: NEWGENE"),
        ("cg2", "Established: ANOTHER; Unestablished: DECIMAL.1")],
       [⟨"cg1", Cell.cstr "GENE1;NEWGENE", "NEWGENE", Cell.cstr "None"⟩,
        ⟨"cg2", Cell.cstr "ALIAS1;DECIMAL.1;ANOTHER", "ALIAS1",
          Cell.cstr "GENE1"⟩,
        ⟨"cg2", Cell.cstr "ALIAS1;DECIMAL.1;ANOTHER", "ANOTHER",
          Cell.cstr "None"⟩],
       [("cg2", "DECIMAL.1")]) := by
  decide

/-- C3 counterexample: the disease aggregation leaves equal-score groups
in first-appearance order (`B` before `A`), not ascending lexical order
(first two conjuncts); and the trait aggregation renders its groups in no
order at all — line 76's `rows.sort(key=..., reverse=[True, False])`
raises TypeError for every group, so the equal-score traits
`Alpha`/`Beta` are never rendered (third conjunct).  Both sides refute
the claimed ascending-alphabetical tie-break. -/
theorem c3_counterexample :
    (annotate_with_disgenet ["G"] [geaTieB, geaTieA] false =
        Except.ok
          [("G", some "B, 0.5;\nA, 0.5",
            some "B, NAPolarity, NA, 1;\nA, NAPolarity, NA, 2")]) ∧
      "B, 0.5;\nA, 0.5" ≠ "A, 0.5;\nB, 0.5" ∧
      attach_ewas_atlas_traits [mrowCg1] [atlasAlpha, atlasBeta] =
        Except.error "TypeError" := by
  decide

/-- C3 amended: the disease aggregation's rendered groups are ordered by
descending numeric score — (i) the sorted entry list is pairwise
descending and (ii) equal-score entries keep their first-appearance
order (the sort is stable), not lexical order — while the trait
aggregation renders nothing in any order: (iii) `aggregate_traits`
raises for every group, because `reverse=[True, False]` is not a valid
`list.sort` argument. -/
theorem c3_amended_ordering :
    (∀ gd : List GeaRow,
        (sorted_entries gd).Pairwise
          (fun a b => fracLeb b.score_val a.score_val = true)) ∧
      (∀ (gd : List GeaRow) (q : Frac),
        (sorted_entries gd).filter (fun e => fracEqb e.score_val q) =
          (valid_entries gd).filter (fun e => fracEqb e.score_val q)) ∧
      (∀ rows : List AtlasRow, (aggregate_traits rows).isOk = false) := by
  refine ⟨?_, ?_, ?_⟩
  · intro gd
    unfold sorted_entries
    exact sortByLe_pairwise (fun a b => fracLeb b.score_val a.score_val)
      (fun a b => fracLeb_total b.score_val a.score_val)
      (fun a b c hab hbc => by
        have hab' : fracLeb b.score_val a.score_val = true := hab
        have hbc' : fracLeb c.score_val b.score_val = true := hbc
        exact fracLeb_trans hbc' hab')
      (valid_entries gd)
  · intro gd q
    unfold sorted_entries
    exact sortByLe_filter_stable
      (fun a b => fracLeb b.score_val a.score_val)
      (fun e => fracEqb e.score_val q)
      (fun a b ha hb => fracLeb_of_eqb_pair hb ha)
      (valid_entries gd)
  · intro rows
    obtain ⟨e, he⟩ := aggregate_traits_error rows
    rw [he]
    rfl

/-- C2: in the disease aggregation, for every (gene, disease) group: when
the group's records all agree on one score value the displayed summary
entry is `"{disease}, {score}"` with that value, and the sort key is that
value; when they disagree the displayed entry is the literal
`"{disease}, error"` while the sort key is the maximum observed score; the
evidence ledger always carries one line per underlying record (a
permutation of the group, which the ledger then orders); and no exception
is raised for a conflict — the ledger computation succeeds whenever the
group's filled year keys are all numeric (no string-typed year cell),
conflict or not. -/
theorem c2_conflict_scoring (gd : List GeaRow) (d : String) :
    (∀ s, dedupFirstBy fracEqb
        ((gd.filter (fun r => decide (r.disease_name = d))).map GeaRow.score) =
          [s] →
      entry_for gd d = ⟨d, s, d ++ ", " ++ strOfFloat s⟩) ∧
    (∀ s1 s2 rest, dedupFirstBy fracEqb
        ((gd.filter (fun r => decide (r.disease_name = d))).map GeaRow.score) =
          s1 :: s2 :: rest →
      entry_for gd d =
        ⟨d, listMax
            ((gd.filter (fun r => decide (r.disease_name = d))).map GeaRow.score),
          d ++ ", error"⟩) ∧
    (∀ L, evidence_rows_for gd d = Except.ok L →
      L.Perm (gd.filter (fun r => decide (r.disease_name = d)))) ∧
    ((∀ r ∈ gd.filter (fun r => decide (r.disease_name = d)),
        (fillYear r.pmYear).isNum = true) →
      ∃ L, evidence_rows_for gd d = Except.ok L) := by
  refine ⟨?_, ?_, ?_, ?_⟩
  · intro s hs
    unfold entry_for
    dsimp only
    rw [hs]
  · intro s1 s2 rest hs
    unfold entry_for
    dsimp only
    rw [hs]
  · intro L hok
    unfold evidence_rows_for at hok
    dsimp only at hok
    split at hok
    · injection hok with hL
      have hfst : ((gd.filter (fun r => decide (r.disease_name = d))).map
          (fun r => (r, pol_rank r.polarity, fillYear r.pmYear))).map
            Prod.fst =
          gd.filter (fun r => decide (r.disease_name = d)) := by
        rw [List.map_map]
        exact List.map_id _
      have hperm := (sortByLe_perm
          (fun a b =>
            decide (a.2.1 < b.2.1) ||
              (decide (a.2.1 = b.2.1) && ykeyLeb a.2.2 b.2.2))
          ((gd.filter (fun r => decide (r.disease_name = d))).map
            (fun r => (r, pol_rank r.polarity, fillYear r.pmYear)))).map
        Prod.fst
      rw [hfst] at hperm
      rw [← hL]
      exact hperm
    · cases hok
  · intro hyears
    have hisok := evidence_rows_for_isOk gd d hyears
    cases hok : evidence_rows_for gd d with
    | error e => rw [hok] at hisok; cases hisok
    | ok L => exact ⟨L, rfl⟩

/-- Witness for C2: two conflicting records for (gene `G`, disease `D`)
with scores 0.5 and 0.3. -/
theorem c2_conflict_scoring_witness :
    entry_for [geaPosRow, geaNegRow] "D" =
        ⟨"D", listMax
            (([geaPosRow, geaNegRow].filter
              (fun r => decide (r.disease_name = "D"))).map GeaRow.score),
          "D" ++ ", error"⟩ ∧
      ∃ L, evidence_rows_for [geaPosRow, geaNegRow] "D" = Except.ok L := by
  constructor
  · exact (c2_conflict_scoring [geaPosRow, geaNegRow] "D").2.1 ⟨5, 9⟩ ⟨3, 9⟩ []
      (by decide)
  · exact (c2_conflict_scoring [geaPosRow, geaNegRow] "D").2.2.2 (by decide)
/-! ## Lemmas about the gap-analysis token loop -/

theorem classify_token_appendix (ex : List String) (syn : List (String × Cell))
    (cpg : String) (g : Cell) (acc : GapAcc) (t : String) :
    (classify_token ex syn cpg g acc t).appendix =
      if containsChar t '.' = true then acc.appendix ++ [(cpg, t)]
      else acc.appendix := by
  unfold classify_token
  dsimp only
  by_cases hm : t ∈ ex
  · by_cases hd : containsChar t '.' = true
    · simp [hd, hm]
    · simp [hd, hm]
  · cases hp : dictGet syn t with
    | none =>
      by_cases hd : containsChar t '.' = true
      · simp [hd, hm, hp]
      · simp [hd, hm, hp]
    | some c =>
      by_cases ht : pyTruthy c = true
      · by_cases hd : containsChar t '.' = true
        · simp [hd, hm, hp, ht]
        · simp [hd, hm, hp, ht]
      · by_cases hd : containsChar t '.' = true
        · simp [hd, hm, hp, ht]
        · simp [hd, hm, hp, ht]

theorem classify_token_est_cases (ex : List String) (syn : List (String × Cell))
    (cpg : String) (g : Cell) (acc : GapAcc) (t : String) :
    (classify_token ex syn cpg g acc t).est = acc.est ∨
      (classify_token ex syn cpg g acc t).est = acc.est ++ [t] := by
  unfold classify_token
  dsimp only
  by_cases hm : t ∈ ex
  · left
    by_cases hd : containsChar t '.' = true
    · simp [hd, hm]
    · simp [hd, hm]
  · cases hp : dictGet syn t with
    | none =>
      by_cases hd : containsChar t '.' = true
      · left
        simp [hd, hm, hp]
      · right
        simp [hd, hm, hp]
    | some c =>
      by_cases ht : pyTruthy c = true
      · left
        by_cases hd : containsChar t '.' = true
        · simp [hd, hm, hp, ht]
        · simp [hd, hm, hp, ht]
      · by_cases hd : containsChar t '.' = true
        · left
          simp [hd, hm, hp, ht]
        · right
          simp [hd, hm, hp, ht]

theorem classify_token_unest_cases (ex : List String)
    (syn : List (String × Cell)) (cpg : String) (g : Cell) (acc : GapAcc)
    (t : String) :
    (classify_token ex syn cpg g acc t).unest = acc.unest ∨
      (classify_token ex syn cpg g acc t).unest = acc.unest ++ [t] := by
  unfold classify_token
  dsimp only
  by_cases hm : t ∈ ex
  · left
    by_cases hd : containsChar t '.' = true
    · simp [hd, hm]
    · simp [hd, hm]
  · cases hp : dictGet syn t with
    | none =>
      by_cases hd : containsChar t '.' = true
      · right
        simp [hd, hm, hp]
      · left
        simp [hd, hm, hp]
    | some c =>
      by_cases ht : pyTruthy c = true
      · left
        by_cases hd : containsChar t '.' = true
        · simp [hd, hm, hp, ht]
        · simp [hd, hm, hp, ht]
      · by_cases hd : containsChar t '.' = true
        · right
          simp [hd, hm, hp, ht]
        · left
          simp [hd, hm, hp, ht]

theorem classify_token_est_of_dec (ex : List String)
    (syn : List (String × Cell)) (cpg : String) (g : Cell) (acc : GapAcc)
    (t : String) (hd : containsChar t '.' = true) :
    (classify_token ex syn cpg g acc t).est = acc.est := by
  unfold classify_token
  dsimp only
  by_cases hm : t ∈ ex
  · simp [hd, hm]
  · cases hp : dictGet syn t with
    | none => simp [hd, hm, hp]
    | some c =>
      by_cases ht : pyTruthy c = true
      · simp [hd, hm, hp, ht]
      · simp [hd, hm, hp, ht]

theorem classify_token_lists_of_truthy (ex : List String)
    (syn : List (String × Cell)) (cpg : String) (g : Cell) (acc : GapAcc)
    (t : String) (c : Cell) (hp : dictGet syn t = some c)
    (ht : pyTruthy c = true) :
    (classify_token ex syn cpg g acc t).est = acc.est ∧
      (classify_token ex syn cpg g acc t).unest = acc.unest := by
  unfold classify_token
  dsimp only
  by_cases hm : t ∈ ex
  · by_cases hd : containsChar t '.' = true
    · simp [hd, hm]
    · simp [hd, hm]
  · by_cases hd : containsChar t '.' = true
    · simp [hd, hm, hp, ht]
    · simp [hd, hm, hp, ht]

theorem classify_token_diag_cases (ex : List String)
    (syn : List (String × Cell)) (cpg : String) (g : Cell) (acc : GapAcc)
    (t : String) :
    (classify_token ex syn cpg g acc t).diag = acc.diag ∨
      ∃ row, (classify_token ex syn cpg g acc t).diag = acc.diag ++ [row] := by
  unfold classify_token
  dsimp only
  by_cases hm : t ∈ ex
  · left
    by_cases hd : containsChar t '.' = true
    · simp [hd, hm]
    · simp [hd, hm]
  · right
    cases hp : dictGet syn t with
    | none =>
      by_cases hd : containsChar t '.' = true
      · exact ⟨⟨cpg, g, t, Cell.cstr "None", true⟩, by simp [hd, hm, hp]⟩
      · exact ⟨⟨cpg, g, t, Cell.cstr "None", false⟩, by simp [hd, hm, hp]⟩
    | some c =>
      by_cases ht : pyTruthy c = true
      · by_cases hd : containsChar t '.' = true
        · exact ⟨⟨cpg, g, t, c, true⟩, by simp [hd, hm, hp, ht]⟩
        · exact ⟨⟨cpg, g, t, c, false⟩, by simp [hd, hm, hp, ht]⟩
      · by_cases hd : containsChar t '.' = true
        · exact ⟨⟨cpg, g, t, Cell.cstr "None", true⟩, by simp [hd, hm, hp, ht]⟩
        · exact ⟨⟨cpg, g, t, Cell.cstr "None", false⟩, by simp [hd, hm, hp, ht]⟩

theorem classify_token_diag_of_alias (ex : List String)
    (syn : List (String × Cell)) (cpg : String) (g : Cell) (acc : GapAcc)
    (t : String) (c : Cell) (hm : t ∉ ex) (hp : dictGet syn t = some c)
    (ht : pyTruthy c = true) :
    (classify_token ex syn cpg g acc t).diag =
      acc.diag ++ [⟨cpg, g, t, c, containsChar t '.'⟩] := by
  unfold classify_token
  dsimp only
  by_cases hd : containsChar t '.' = true
  · simp [hd, hm, hp, ht]
  · simp [hd, hm, hp, ht]

theorem classify_fold_appendix_mono (ex : List String)
    (syn : List (String × Cell)) (cpg : String) (g : Cell) :
    ∀ (tokens : List String) (acc : GapAcc) (x : String × String),
      x ∈ acc.appendix →
      x ∈ (tokens.foldl (classify_token ex syn cpg g) acc).appendix := by
  intro tokens
  induction tokens with
  | nil => intro acc x hx; exact hx
  | cons t ts ih =>
    intro acc x hx
    rw [List.foldl_cons]
    refine ih _ x ?_
    rw [classify_token_appendix]
    by_cases hd : containsChar t '.' = true
    · rw [if_pos hd]
      exact List.mem_append_left _ hx
    · rw [if_neg hd]
      exact hx

theorem classify_fold_appendix_mem (ex : List String)
    (syn : List (String × Cell)) (cpg : String) (g : Cell) :
    ∀ (tokens : List String) (acc : GapAcc) (t : String), t ∈ tokens →
      containsChar t '.' = true →
      (cpg, t) ∈ (tokens.foldl (classify_token ex syn cpg g) acc).appendix := by
  intro tokens
  induction tokens with
  | nil => intro acc t ht; exact absurd ht (by simp)
  | cons u us ih =>
    intro acc t ht hd
    rw [List.foldl_cons]
    rcases List.mem_cons.mp ht with rfl | ht'
    · refine classify_fold_appendix_mono ex syn cpg g us _ _ ?_
      rw [classify_token_appendix, if_pos hd]
      exact List.mem_append_right _ (by simp)
    · exact ih _ t ht' hd

theorem classify_fold_est_not_mem (ex : List String)
    (syn : List (String × Cell)) (cpg : String) (g : Cell) (token : String)
    (hskip : ∀ acc : GapAcc,
      (classify_token ex syn cpg g acc token).est = acc.est) :
    ∀ (tokens : List String) (acc : GapAcc), token ∉ acc.est →
      token ∉ (tokens.foldl (classify_token ex syn cpg g) acc).est := by
  intro tokens
  induction tokens with
  | nil => intro acc hx; exact hx
  | cons t ts ih =>
    intro acc hx
    rw [List.foldl_cons]
    refine ih _ ?_
    by_cases he : t = token
    · subst he
      rw [hskip acc]
      exact hx
    · rcases classify_token_est_cases ex syn cpg g acc t with h | h
      · rw [h]; exact hx
      · rw [h]
        intro hmem
        rcases List.mem_append.mp hmem with h' | h'
        · exact hx h'
        · simp at h'
          exact he h'.symm

theorem classify_fold_unest_not_mem (ex : List String)
    (syn : List (String × Cell)) (cpg : String) (g : Cell) (token : String)
    (hskip : ∀ acc : GapAcc,
      (classify_token ex syn cpg g acc token).unest = acc.unest) :
    ∀ (tokens : List String) (acc : GapAcc), token ∉ acc.unest →
      token ∉ (tokens.foldl (classify_token ex syn cpg g) acc).unest := by
  intro tokens
  induction tokens with
  | nil => intro acc hx; exact hx
  | cons t ts ih =>
    intro acc hx
    rw [List.foldl_cons]
    refine ih _ ?_
    by_cases he : t = token
    · subst he
      rw [hskip acc]
      exact hx
    · rcases classify_token_unest_cases ex syn cpg g acc t with h | h
      · rw [h]; exact hx
      · rw [h]
        intro hmem
        rcases List.mem_append.mp hmem with h' | h'
        · exact hx h'
        · simp at h'
          exact he h'.symm

theorem classify_fold_diag_mono (ex : List String)
    (syn : List (String × Cell)) (cpg : String) (g : Cell) :
    ∀ (tokens : List String) (acc : GapAcc) (x : DiagRow), x ∈ acc.diag →
      x ∈ (tokens.foldl (classify_token ex syn cpg g) acc).diag := by
  intro tokens
  induction tokens with
  | nil => intro acc x hx; exact hx
  | cons t ts ih =>
    intro acc x hx
    rw [List.foldl_cons]
    refine ih _ x ?_
    rcases classify_token_diag_cases ex syn cpg g acc t with h | ⟨row, h⟩
    · rw [h]; exact hx
    · rw [h]; exact List.mem_append_left _ hx

theorem classify_fold_diag_mem_alias (ex : List String)
    (syn : List (String × Cell)) (cpg : String) (g : Cell) (token : String)
    (c : Cell) (hm : token ∉ ex) (hp : dictGet syn token = some c)
    (ht : pyTruthy c = true) :
    ∀ (tokens : List String) (acc : GapAcc), token ∈ tokens →
      (⟨cpg, g, token, c, containsChar token '.'⟩ : DiagRow) ∈
        (tokens.foldl (classify_token ex syn cpg g) acc).diag := by
  intro tokens
  induction tokens with
  | nil => intro acc h; exact absurd h (by simp)
  | cons t ts ih =>
    intro acc h
    rw [List.foldl_cons]
    rcases List.mem_cons.mp h with rfl | h'
    · refine classify_fold_diag_mono ex syn cpg g ts _ _ ?_
      rw [classify_token_diag_of_alias ex syn cpg g acc token c hm hp ht]
      exact List.mem_append_right _ (by simp)
    · exact ih _ h'

/-! ## Lemmas about the per-probe loop of `analyze_unmapped_genes` -/

theorem gapStep_diag_mono (ex : List String) (syn : List (String × Cell))
    (out : GapOut) (p : String × Cell) (x : DiagRow) (hx : x ∈ out.diag) :
    x ∈ (gapStep ex syn out p).diag := by
  unfold gapStep
  by_cases hna : p.2 = Cell.na
  · rw [if_pos hna]; exact hx
  · rw [if_neg hna]
    exact List.mem_append_left _ hx

theorem gapStep_appendix_mono (ex : List String) (syn : List (String × Cell))
    (out : GapOut) (p : String × Cell) (x : String × String)
    (hx : x ∈ out.appendix) : x ∈ (gapStep ex syn out p).appendix := by
  unfold gapStep
  by_cases hna : p.2 = Cell.na
  · rw [if_pos hna]; exact hx
  · rw [if_neg hna]
    exact List.mem_append_left _ hx

theorem gapFold_diag_mono (ex : List String) (syn : List (String × Cell)) :
    ∀ (pairs : List (String × Cell)) (init : GapOut) (x : DiagRow),
      x ∈ init.diag → x ∈ (pairs.foldl (gapStep ex syn) init).diag := by
  intro pairs
  induction pairs with
  | nil => intro init x hx; exact hx
  | cons p ps ih =>
    intro init x hx
    rw [List.foldl_cons]
    exact ih _ x (gapStep_diag_mono ex syn init p x hx)

theorem gapFold_appendix_mono (ex : List String) (syn : List (String × Cell)) :
    ∀ (pairs : List (String × Cell)) (init : GapOut) (x : String × String),
      x ∈ init.appendix → x ∈ (pairs.foldl (gapStep ex syn) init).appendix := by
  intro pairs
  induction pairs with
  | nil => intro init x hx; exact hx
  | cons p ps ih =>
    intro init x hx
    rw [List.foldl_cons]
    exact ih _ x (gapStep_appendix_mono ex syn init p x hx)

theorem gapFold_diag_of_pair (ex : List String) (syn : List (String × Cell)) :
    ∀ (pairs : List (String × Cell)) (init : GapOut) (p : String × Cell)
      (x : DiagRow), p ∈ pairs → p.2 ≠ Cell.na →
      x ∈ (classify_tokens ex syn p.1 p.2 (tokensOf p.2)).diag →
      x ∈ (pairs.foldl (gapStep ex syn) init).diag := by
  intro pairs
  induction pairs with
  | nil => intro init p x hp; exact absurd hp (by simp)
  | cons q qs ih =>
    intro init p x hp hna hx
    rw [List.foldl_cons]
    rcases List.mem_cons.mp hp with rfl | hp'
    · refine gapFold_diag_mono ex syn qs _ x ?_
      unfold gapStep
      rw [if_neg hna]
      exact List.mem_append_right _ hx
    · exact ih _ p x hp' hna hx

theorem gapFold_appendix_of_pair (ex : List String)
    (syn : List (String × Cell)) :
    ∀ (pairs : List (String × Cell)) (init : GapOut) (p : String × Cell)
      (x : String × String), p ∈ pairs → p.2 ≠ Cell.na →
      x ∈ (classify_tokens ex syn p.1 p.2 (tokensOf p.2)).appendix →
      x ∈ (pairs.foldl (gapStep ex syn) init).appendix := by
  intro pairs
  induction pairs with
  | nil => intro init p x hp; exact absurd hp (by simp)
  | cons q qs ih =>
    intro init p x hp hna hx
    rw [List.foldl_cons]
    rcases List.mem_cons.mp hp with rfl | hp'
    · refine gapFold_appendix_mono ex syn qs _ x ?_
      unfold gapStep
      rw [if_neg hna]
      exact List.mem_append_right _ hx
    · exact ih _ p x hp' hna hx

/-- C7: every reported gene token containing a decimal point is classified
"unestablished" regardless of its mapping status: it lands with its probe
id in the appendix table even when it is a canonical symbol or a synonym,
it is never placed in the established list, and the appendix table is
deduplicated. -/
theorem c7_decimal_tokens (atlas : List AtlasRow) (living : List LivingRow)
    (row : AtlasRow) (token : String) :
    (row ∈ atlas → row.genes ≠ Cell.na → token ∈ tokensOf row.genes →
      containsChar token '.' = true →
      (row.cpg, token) ∈ (analyze_unmapped_genes atlas living).2.2) ∧
    (∀ (ex : List String) (syn : List (String × Cell)) (cpg : String)
        (g : Cell) (tokens : List String), containsChar token '.' = true →
      token ∉ (classify_tokens ex syn cpg g tokens).est) ∧
    ((analyze_unmapped_genes atlas living).2.2).Nodup := by
  refine ⟨?_, ?_, ?_⟩
  · intro hrow hna htok hd
    unfold analyze_unmapped_genes
    dsimp only
    apply (mem_dedupFirst_iff _ _).mpr
    refine gapFold_appendix_of_pair _ _
      (dedupFirst (atlas.map (fun r => (r.cpg, r.genes)))) ⟨[], [], []⟩
      (row.cpg, row.genes) (row.cpg, token) ?_ hna ?_
    · exact (mem_dedupFirst_iff _ _).mpr
        (List.mem_map_of_mem (fun r => (r.cpg, r.genes)) hrow)
    · exact classify_fold_appendix_mem _ _ row.cpg row.genes
        (tokensOf row.genes) _ token htok hd
  · intro ex syn cpg g tokens hd
    exact classify_fold_est_not_mem ex syn cpg g token
      (fun acc => classify_token_est_of_dec ex syn cpg g acc token hd)
      tokens _ (by simp)
  · unfold analyze_unmapped_genes
    dsimp only
    exact nodup_dedupFirst _

/-- Witness for C7: the decimal alias token `AB.1` reported for `cg1`. -/
theorem c7_decimal_tokens_witness :
    ("cg1", "AB.1") ∈ (analyze_unmapped_genes aliasAtlas aliasLiving).2.2 ∧
      "AB.1" ∉ (classify_tokens [] [] "cg1" Cell.na ["AB.1"]).est ∧
      ((analyze_unmapped_genes aliasAtlas aliasLiving).2.2).Nodup := by
  have h := c7_decimal_tokens aliasAtlas aliasLiving
    ⟨"cg1", Cell.na, Cell.na, Cell.na, Cell.na, Cell.na, Cell.cstr "AB.1"⟩
    "AB.1"
  exact ⟨h.1 (by decide) (by decide) (by decide) (by decide),
    h.2.1 [] [] "cg1" Cell.na ["AB.1"] (by decide), h.2.2⟩

/-- C6 counterexample: the living file maps symbol `GENE1` to the
decimal-containing synonym `AB.1`, and the atlas reports exactly `AB.1`.
The token is indeed in the synonym index and absent from the canonical
set, and it is kept out of both unmapped lists (first output empty) — but
the diagnostic ledger is EMPTY (decimal rows are filtered out at line
185), refuting the claim that the ledger contains a row for every
synonym-resolved token. -/
theorem c6_counterexample :
    analyze_unmapped_genes aliasAtlas aliasLiving =
        ([], [], [("cg1", "AB.1")]) ∧
      dictGet (build_synonyms_map aliasLiving) "AB.1" =
        some (Cell.cstr "GENE1") ∧
      "AB.1" ∉ existing_symbols aliasLiving := by
  decide

/-- C6 amended: for every reported token absent from the canonical-symbol
set but present in the synonym index with a truthy (non-empty, non-null)
owning symbol, the gap analysis never places the token in either unmapped
list; and, provided the token contains NO decimal point, the diagnostic
ledger contains a row for it whose `synonym_of` is the owning symbol
(decimal-containing alias tokens are excluded from the ledger). -/
theorem c6_amended_alias_ledger (atlas : List AtlasRow)
    (living : List LivingRow) (token : String) (c : Cell)
    (hm : token ∉ existing_symbols living)
    (hp : dictGet (build_synonyms_map living) token = some c)
    (ht : pyTruthy c = true) :
    (∀ (cpg : String) (g : Cell) (tokens : List String),
      token ∉ (classify_tokens (existing_symbols living)
          (build_synonyms_map living) cpg g tokens).est ∧
        token ∉ (classify_tokens (existing_symbols living)
          (build_synonyms_map living) cpg g tokens).unest) ∧
      (containsChar token '.' = false →
        ∀ row : AtlasRow, row ∈ atlas → row.genes ≠ Cell.na →
          token ∈ tokensOf row.genes →
          ∃ drow : DiagOut, drow ∈ (analyze_unmapped_genes atlas living).2.1 ∧
            drow.uncaptured_gene = token ∧ drow.synonym_of = c) := by
  constructor
  · intro cpg g tokens
    constructor
    · exact classify_fold_est_not_mem _ _ cpg g token
        (fun acc => (classify_token_lists_of_truthy _ _ cpg g acc token c
          hp ht).1)
        tokens _ (by simp)
    · exact classify_fold_unest_not_mem _ _ cpg g token
        (fun acc => (classify_token_lists_of_truthy _ _ cpg g acc token c
          hp ht).2)
        tokens _ (by simp)
  · intro hd row hrow hna htok
    refine ⟨⟨row.cpg, row.genes, token, c⟩, ?_, rfl, rfl⟩
    unfold analyze_unmapped_genes
    dsimp only
    have hdiag : (⟨row.cpg, row.genes, token, c, containsChar token '.'⟩ :
        DiagRow) ∈
        ((dedupFirst (atlas.map (fun r => (r.cpg, r.genes)))).foldl
          (gapStep (existing_symbols living) (build_synonyms_map living))
          ⟨[], [], []⟩).diag := by
      refine gapFold_diag_of_pair _ _ _ ⟨[], [], []⟩ (row.cpg, row.genes) _
        ?_ hna ?_
      · exact (mem_dedupFirst_iff _ _).mpr
          (List.mem_map_of_mem (fun r => (r.cpg, r.genes)) hrow)
      · exact classify_fold_diag_mem_alias _ _ row.cpg row.genes token c hm hp
          ht (tokensOf row.genes) _ htok
    rw [hd] at hdiag
    refine List.mem_map.mpr ⟨⟨row.cpg, row.genes, token, c, false⟩, ?_, rfl⟩
    exact List.mem_filter.mpr ⟨hdiag, by simp⟩

/-- Witness for C6 (amended): a dot-free alias token `ALIAS1` of `GENE1`
in the unit-test data. -/
theorem c6_amended_alias_ledger_witness :
    (("ALIAS1" ∉ (classify_tokens (existing_symbols testLiving)
        (build_synonyms_map testLiving) "cg2"
        (Cell.cstr "ALIAS1;DECIMAL.1;ANOTHER")
        ["ALIAS1", "DECIMAL.1", "ANOTHER"]).est) ∧
      ("ALIAS1" ∉ (classify_tokens (existing_symbols testLiving)
        (build_synonyms_map testLiving) "cg2"
        (Cell.cstr "ALIAS1;DECIMAL.1;ANOTHER")
        ["ALIAS1", "DECIMAL.1", "ANOTHER"]).unest)) ∧
      ∃ drow : DiagOut,
        drow ∈ (analyze_unmapped_genes testAtlas testLiving).2.1 ∧
          drow.uncaptured_gene = "ALIAS1" ∧
          drow.synonym_of = Cell.cstr "GENE1" := by
  have h := c6_amended_alias_ledger testAtlas testLiving "ALIAS1"
    (Cell.cstr "GENE1") (by decide) (by decide) (by decide)
  refine ⟨h.1 "cg2" (Cell.cstr "ALIAS1;DECIMAL.1;ANOTHER")
    ["ALIAS1", "DECIMAL.1", "ANOTHER"], ?_⟩
  exact h.2 (by decide)
    ⟨"cg2", Cell.na, Cell.na, Cell.na, Cell.na, Cell.na,
      Cell.cstr "ALIAS1;DECIMAL.1;ANOTHER"⟩
    (by decide) (by decide) (by decide)

/-! ## Lemmas for the batch-robustness claim -/

